import Mathlib

/-!
Verification of the AdGuard DNS analytics script (`src/app.py`) against its
natural-language specification.  The script's pure core is shallowly embedded:

* `extract_top_level_domain` embeds the Python function of the same name
  (app.py lines 51-90); Python's `str.lower` is modelled on the basic-latin
  range by `Char.toLower`, and `str.split(".")` by `splitDot` on `List Char`.
* `get_filter_reason` / `is_filtered` embed app.py lines 93-110 and 125-127;
  a Python "result" value (the `Result` field of a record) is `ResultObj`.
* `load_leases` embeds app.py lines 35-48, with a Python dict modelled as a
  function `String → Option String` (dict assignment = pointwise update).
* `load_querylog` embeds app.py lines 19-32; `json.loads` is an external
  library call and is a parameter `parse`, with `none` standing for a raised
  `json.JSONDecodeError`; an `Except.error` value stands for the exception
  propagating out of the loader.
* `filterClients`, `filterDomains`, `filterQueryTypes`, `filterStatus` embed
  the sidebar filter steps (app.py lines 168-211) acting on a list of
  normalized records `NRec`.
-/

/-- Python `s.split(".")` on a string viewed as a list of characters:
splitting on every occurrence of `'.'`, keeping empty fragments, and
producing `[[]]` on the empty string (as `"".split(".") == [""]`). -/
def splitDot : List Char → List (List Char)
  | [] => [[]]
  | c :: rest =>
    if c = '.' then [] :: splitDot rest
    else
      match splitDot rest with
      | [] => [[c]]
      | p :: ps => (c :: p) :: ps

/-- The fixed multi-part suffix table of app.py lines 68-79. -/
def multi_part_tlds : List String :=
  ["co.uk", "com.au", "co.nz", "co.jp", "com.br",
   "org.uk", "net.au", "ac.uk", "gov.uk", "3gppnetwork.org"]

/-- `parts = host.lower().split(".")` of app.py line 63. -/
def tldParts (host : String) : List (List Char) :=
  splitDot (host.data.map Char.toLower)

/-- Python `parts[-i]` (for `1 ≤ i ≤ len(parts)`), as used in app.py
lines 82-88. -/
def lastLabel (parts : List (List Char)) (i : Nat) : List Char :=
  parts.getD (parts.length - i) []

/-- Embedding of `extract_top_level_domain` (app.py lines 51-90).  The
source's redundant inner `if len(parts) >= 3` re-check is collapsed into the
conjunction guarding the three-label return. -/
def extract_top_level_domain (host : String) : String :=
  if host = "" then ""
  else
    if 2 ≤ (tldParts host).length then
      if 3 ≤ (tldParts host).length ∧
          String.mk (lastLabel (tldParts host) 2 ++ '.' :: lastLabel (tldParts host) 1)
            ∈ multi_part_tlds then
        String.mk (lastLabel (tldParts host) 3 ++ '.' :: lastLabel (tldParts host) 2
          ++ '.' :: lastLabel (tldParts host) 1)
      else
        String.mk (lastLabel (tldParts host) 2 ++ '.' :: lastLabel (tldParts host) 1)
    else host

/-- Reference extractor following the words of claim C4: empty string to
empty string; a host with no dot returned as-is; otherwise lower-case, split
on `'.'`, and if there are at least 3 labels whose last two form a suffix in
the fixed table, return the last three labels joined by `'.'`, else the last
two labels joined by `'.'`. -/
def extract_tld_reference (host : String) : String :=
  if host = "" then ""
  else if '.' ∉ host.data then host
  else
    if 3 ≤ (tldParts host).length ∧
        String.mk (lastLabel (tldParts host) 2 ++ '.' :: lastLabel (tldParts host) 1)
          ∈ multi_part_tlds then
      String.mk (lastLabel (tldParts host) 3 ++ '.' :: lastLabel (tldParts host) 2
        ++ '.' :: lastLabel (tldParts host) 1)
    else
      String.mk (lastLabel (tldParts host) 2 ++ '.' :: lastLabel (tldParts host) 1)

theorem splitDot_ne_nil (l : List Char) : splitDot l ≠ [] := by
  cases l with
  | nil => simp [splitDot]
  | cons c rest =>
    rw [splitDot]
    split
    · simp
    · cases h : splitDot rest <;> simp

theorem ofNat_add32_ne_dot (n : Nat) (h1 : 65 ≤ n) (h2 : n ≤ 90) :
    Char.ofNat (n + 32) ≠ '.' := by
  interval_cases n <;> decide

theorem toLower_eq_dot_iff (c : Char) : Char.toLower c = '.' ↔ c = '.' := by
  have hunf : Char.toLower c =
      if c.toNat ≥ 65 ∧ c.toNat ≤ 90 then Char.ofNat (c.toNat + 32) else c := rfl
  constructor
  · intro h
    rw [hunf] at h
    by_cases hc : c.toNat ≥ 65 ∧ c.toNat ≤ 90
    · rw [if_pos hc] at h
      exact absurd h (ofNat_add32_ne_dot c.toNat hc.1 hc.2)
    · rwa [if_neg hc] at h
  · intro h
    subst h
    decide

theorem mem_dot_map_toLower (l : List Char) :
    '.' ∈ l.map Char.toLower ↔ '.' ∈ l := by
  rw [List.mem_map]
  constructor
  · rintro ⟨c, hc, hce⟩
    rwa [(toLower_eq_dot_iff c).mp hce] at hc
  · intro h
    exact ⟨'.', h, by decide⟩

theorem splitDot_length_eq_one_iff (l : List Char) :
    (splitDot l).length = 1 ↔ '.' ∉ l := by
  induction l with
  | nil => simp [splitDot]
  | cons c rest ih =>
    rw [splitDot]
    by_cases hc : c = '.'
    · subst hc
      have hne := splitDot_ne_nil rest
      rw [if_pos rfl]
      constructor
      · intro h
        exfalso
        rw [List.length_cons] at h
        have : (splitDot rest).length = 0 := by omega
        exact hne (List.length_eq_zero.mp this)
      · intro h
        exact absurd (List.mem_cons_self '.' rest) h
    · rw [if_neg hc]
      cases hrest : splitDot rest with
      | nil => exact absurd hrest (splitDot_ne_nil rest)
      | cons p ps =>
        simp only [List.length_cons, List.mem_cons]
        rw [hrest] at ih
        simp only [List.length_cons] at ih
        constructor
        · intro h
          have hps : ps.length = 0 := by omega
          have : '.' ∉ rest := ih.mp (by omega)
          tauto
        · intro h
          have : ps.length + 1 = 1 := ih.mpr (by tauto)
          omega

theorem two_le_splitDot_length_of_mem {l : List Char} (h : '.' ∈ l) :
    2 ≤ (splitDot l).length := by
  have h1 : (splitDot l).length ≠ 1 := fun he =>
    ((splitDot_length_eq_one_iff l).mp he) h
  have h0 : (splitDot l).length ≠ 0 := fun he =>
    splitDot_ne_nil l (List.length_eq_zero.mp he)
  omega

/-- C4: the extractor agrees with the reference definition spelled out in the
claim, on every input hostname. -/
theorem C4_extract_tld_matches_reference (host : String) :
    extract_top_level_domain host = extract_tld_reference host := by
  by_cases h0 : host = ""
  · simp [extract_top_level_domain, extract_tld_reference, h0]
  · by_cases hd : '.' ∈ host.data
    · have h2 : 2 ≤ (tldParts host).length :=
        two_le_splitDot_length_of_mem ((mem_dot_map_toLower host.data).mpr hd)
      rw [extract_top_level_domain, extract_tld_reference,
        if_neg h0, if_neg h0, if_pos h2,
        if_neg (show ¬ ('.' ∉ host.data) from not_not_intro hd)]
    · have h1 : (tldParts host).length = 1 :=
        (splitDot_length_eq_one_iff _).mpr (by
          rw [mem_dot_map_toLower]; exact hd)
      rw [extract_top_level_domain, extract_tld_reference,
        if_neg h0, if_neg h0, if_neg (show ¬ 2 ≤ (tldParts host).length by omega),
        if_pos hd]

theorem mk_append_dot_ne_empty (x y : List Char) : String.mk (x ++ '.' :: y) ≠ "" := by
  intro h
  have h2 : x ++ '.' :: y = [] := congrArg String.data h
  simp at h2

/-- C7: the derived top-level domain is the empty string on the empty
hostname and a non-empty string on every non-empty hostname. -/
theorem C7_tld_nonempty (host : String) :
    (host = "" → extract_top_level_domain host = "") ∧
    (host ≠ "" → extract_top_level_domain host ≠ "") := by
  constructor
  · intro h
    simp [extract_top_level_domain, h]
  · intro h0
    rw [extract_top_level_domain, if_neg h0]
    split
    · split
      · exact mk_append_dot_ne_empty _ _
      · exact mk_append_dot_ne_empty _ _
    · exact h0

theorem C7_tld_nonempty_witness :
    extract_top_level_domain "" = "" ∧ extract_top_level_domain "www.google.com" ≠ "" :=
  ⟨(C7_tld_nonempty "").1 rfl, (C7_tld_nonempty "www.google.com").2 (by decide)⟩

theorem splitDot_getLast_of_dot :
    ∀ l : List Char, l.getLast? = some '.' →
      (splitDot l).getLast? = some ([] : List Char) ∧ 2 ≤ (splitDot l).length := by
  intro l
  induction l with
  | nil => intro h; simp at h
  | cons c rest ih =>
    intro h
    cases rest with
    | nil =>
      simp only [List.getLast?_singleton, Option.some.injEq] at h
      subst h
      decide
    | cons d rest' =>
      rw [List.getLast?_cons_cons] at h
      obtain ⟨hlast, hlen⟩ := ih h
      rw [splitDot]
      by_cases hc : c = '.'
      · rw [if_pos hc]
        have heq : ([] : List Char) :: splitDot (d :: rest') =
            [[]] ++ splitDot (d :: rest') := rfl
        constructor
        · rw [heq, List.getLast?_append, hlast]
          rfl
        · rw [List.length_cons]
          omega
      · rw [if_neg hc]
        cases hrest : splitDot (d :: rest') with
        | nil => exact absurd hrest (splitDot_ne_nil _)
        | cons p ps =>
          rw [hrest] at hlast hlen
          have hps : ps ≠ [] := by
            intro hn
            rw [hn] at hlen
            simp at hlen
          have hpsl : ps.getLast? = some ([] : List Char) := by
            have h1 : (p :: ps).getLast? = ps.getLast?.or (some p) := by
              rw [show p :: ps = [p] ++ ps from rfl, List.getLast?_append]
              rfl
            rw [h1] at hlast
            obtain ⟨x, hx⟩ := Option.isSome_iff_exists.mp (List.getLast?_isSome.mpr hps)
            rw [hx] at hlast ⊢
            simpa using hlast
          constructor
          · show ((c :: p) :: ps).getLast? = some ([] : List Char)
            rw [show (c :: p) :: ps = [c :: p] ++ ps from rfl, List.getLast?_append, hpsl]
            rfl
          · show 2 ≤ ((c :: p) :: ps).length
            rw [List.length_cons]
            rw [List.length_cons] at hlen
            have : ps.length ≠ 0 := fun hz => hps (List.length_eq_zero.mp hz)
            omega

/-- C10: on a hostname ending in a dot, the split keeps the trailing empty
label, so the extractor output again ends in a dot; on the concrete input
"www.google.com." it returns "com." and not "google.com". -/
theorem C10_trailing_dot (host : String) (h0 : host ≠ "")
    (h : host.data.getLast? = some '.') :
    (extract_top_level_domain host).data.getLast? = some '.' ∧
    extract_top_level_domain "www.google.com." = "com." ∧
    extract_top_level_domain "www.google.com." ≠ "google.com" := by
  refine ⟨?_, by decide, by decide⟩
  have hlow : (host.data.map Char.toLower).getLast? = some '.' := by
    rw [List.getLast?_map, h]
    rfl
  obtain ⟨hlast, hlen⟩ := splitDot_getLast_of_dot _ hlow
  have hL1 : lastLabel (tldParts host) 1 = [] := by
    rw [lastLabel, List.getD_eq_getElem?_getD, ← List.getLast?_eq_getElem?]
    rw [show (tldParts host).getLast? = some ([] : List Char) from hlast]
    rfl
  rw [extract_top_level_domain, if_neg h0,
    if_pos (show 2 ≤ (tldParts host).length from hlen)]
  split
  · rw [hL1]
    exact List.getLast?_concat _
  · rw [hL1]
    exact List.getLast?_concat _

theorem C10_trailing_dot_witness :
    ("www.google.com." : String) ≠ "" ∧
    (extract_top_level_domain "www.google.com.").data.getLast? = some '.' :=
  ⟨by decide, (C10_trailing_dot "www.google.com." (by decide) (by decide)).1⟩

/-- The `Result` field value of a query record, partly decoded.  A record's
`Result` may be absent or JSON `null` (both arrive as a non-dict in Python:
`pyNone`), a non-object value (`nonObject`), or an object; an object is
recorded by the value of its `Reason` key when present (an integer, the only
case the spec covers), the value of its `IsFiltered` key when present, and
whether it carries any further keys (which only matters for Python's
truthiness test `not result` on an otherwise empty dict). -/
structure ResultDict where
  reason : Option Int
  isFiltered : Option Bool
  otherKeys : Bool
deriving DecidableEq

inductive ResultObj where
  | pyNone : ResultObj
  | nonObject : ResultObj
  | dict : ResultDict → ResultObj
deriving DecidableEq

/-- Python truthiness of the result dict: a dict is falsy iff it is empty. -/
def ResultDict.truthy (d : ResultDict) : Bool :=
  d.reason.isSome || d.isFiltered.isSome || d.otherKeys

/-- The `reason_codes` table of app.py lines 98-107. -/
def reason_codes : List (Int × String) :=
  [(0, "Not Filtered"), (1, "Blocked by Filter"), (2, "Blocked (Safebrowsing)"),
   (3, "Blocked by Rule"), (4, "Blocked (Parental)"), (5, "Rewritten"),
   (6, "Rewritten (Hosts)"), (7, "Rewritten (Safe Search)")]

/-- Embedding of `get_filter_reason` (app.py lines 93-110): `not result or
not isinstance(result, dict)` is the first three branches; then
`reason = result.get("Reason", 0)` and a `dict.get` with an
`"Unknown (<code>)"` default. -/
def get_filter_reason : ResultObj → String
  | ResultObj.pyNone => "Not Filtered"
  | ResultObj.nonObject => "Not Filtered"
  | ResultObj.dict d =>
    if d.truthy = false then "Not Filtered"
    else
      match List.lookup (d.reason.getD 0) reason_codes with
      | some label => label
      | none => "Unknown (" ++ toString (d.reason.getD 0) ++ ")"

/-- Embedding of the `is_filtered` column (app.py lines 125-127):
`x.get("IsFiltered", False) if isinstance(x, dict) else False`. -/
def is_filtered : ResultObj → Bool
  | ResultObj.dict d => d.isFiltered.getD false
  | _ => false

/-- Reference labelling from the words of claim C5: codes 0-7 map to the
fixed table, any other integer code maps to `"Unknown (<code>)"`. -/
def spec_reason_label (c : Int) : String :=
  if c = 0 then "Not Filtered"
  else if c = 1 then "Blocked by Filter"
  else if c = 2 then "Blocked (Safebrowsing)"
  else if c = 3 then "Blocked by Rule"
  else if c = 4 then "Blocked (Parental)"
  else if c = 5 then "Rewritten"
  else if c = 6 then "Rewritten (Hosts)"
  else if c = 7 then "Rewritten (Safe Search)"
  else "Unknown (" ++ toString c ++ ")"

/-- The fixed 8-value enumeration named by claim C2. -/
def filter_status_enum : List String :=
  ["Not Filtered", "Blocked by Filter", "Blocked (Safebrowsing)",
   "Blocked by Rule", "Blocked (Parental)", "Rewritten",
   "Rewritten (Hosts)", "Rewritten (Safe Search)"]

theorem reason_lookup_none {c : Int} (h : c < 0 ∨ 7 < c) :
    List.lookup c reason_codes = none := by
  have h0 : (c == (0 : Int)) = false := by simp only [beq_eq_false_iff_ne, ne_eq]; omega
  have h1 : (c == (1 : Int)) = false := by simp only [beq_eq_false_iff_ne, ne_eq]; omega
  have h2 : (c == (2 : Int)) = false := by simp only [beq_eq_false_iff_ne, ne_eq]; omega
  have h3 : (c == (3 : Int)) = false := by simp only [beq_eq_false_iff_ne, ne_eq]; omega
  have h4 : (c == (4 : Int)) = false := by simp only [beq_eq_false_iff_ne, ne_eq]; omega
  have h5 : (c == (5 : Int)) = false := by simp only [beq_eq_false_iff_ne, ne_eq]; omega
  have h6 : (c == (6 : Int)) = false := by simp only [beq_eq_false_iff_ne, ne_eq]; omega
  have h7 : (c == (7 : Int)) = false := by simp only [beq_eq_false_iff_ne, ne_eq]; omega
  simp [reason_codes, List.lookup, h0, h1, h2, h3, h4, h5, h6, h7]

theorem spec_reason_label_of_out {c : Int} (h : c < 0 ∨ 7 < c) :
    spec_reason_label c = "Unknown (" ++ toString c ++ ")" := by
  rw [spec_reason_label]
  split_ifs
  all_goals first | rfl | omega

/-- C5: the classifier maps a result object carrying integer code `c` to the
fixed table entry for `c` in 0-7 and to `"Unknown (<c>)"` otherwise (both
summarized by `spec_reason_label`), and maps an absent/null result, a
non-object result, and a result missing the code to "Not Filtered". -/
theorem C5_get_filter_reason_table (d : ResultDict) (c : Int) :
    (d.reason = some c → get_filter_reason (ResultObj.dict d) = spec_reason_label c) ∧
    (d.reason = none → get_filter_reason (ResultObj.dict d) = "Not Filtered") ∧
    get_filter_reason ResultObj.pyNone = "Not Filtered" ∧
    get_filter_reason ResultObj.nonObject = "Not Filtered" := by
  refine ⟨?_, ?_, rfl, rfl⟩
  · intro h
    have ht : d.truthy = true := by
      simp [ResultDict.truthy, h]
    rw [get_filter_reason]
    rw [if_neg (by rw [ht]; simp)]
    rw [h]
    by_cases hc : 0 ≤ c ∧ c ≤ 7
    · obtain ⟨hc0, hc7⟩ := hc
      interval_cases c <;> rfl
    · have hout : c < 0 ∨ 7 < c := by omega
      rw [show (some c).getD 0 = c from rfl, reason_lookup_none hout,
        spec_reason_label_of_out hout]
  · intro h
    rw [get_filter_reason]
    by_cases ht : d.truthy = false
    · rw [if_pos ht]
    · rw [if_neg ht, h]
      rfl

theorem C5_get_filter_reason_table_witness :
    get_filter_reason (ResultObj.dict ⟨some 5, none, false⟩) = spec_reason_label 5 ∧
    get_filter_reason (ResultObj.dict ⟨some 9, some true, false⟩) = spec_reason_label 9 ∧
    get_filter_reason (ResultObj.dict ⟨none, some true, true⟩) = "Not Filtered" :=
  ⟨(C5_get_filter_reason_table ⟨some 5, none, false⟩ 5).1 rfl,
   (C5_get_filter_reason_table ⟨some 9, some true, false⟩ 9).1 rfl,
   (C5_get_filter_reason_table ⟨none, some true, true⟩ 0).2.1 rfl⟩

/-- C2 counterexample: a result object with reason code 8 yields the label
"Unknown (8)", which is not a value of the fixed 8-value enumeration, so
`filter_status` is not always drawn from that enumeration. -/
theorem C2_filter_status_counterexample :
    get_filter_reason (ResultObj.dict ⟨some 8, none, false⟩) = "Unknown (8)" ∧
    "Unknown (8)" ∉ filter_status_enum := by
  constructor
  · rfl
  · decide

/-- C2 amended: the derived filter status is always a string (never null) and
is either a value of the fixed 8-value enumeration or an "Unknown (<code>)"
label for an integer code outside 0-7. -/
theorem C2_filter_status_amended (r : ResultObj) :
    get_filter_reason r ∈ filter_status_enum ∨
    ∃ c : Int, (c < 0 ∨ 7 < c) ∧
      get_filter_reason r = "Unknown (" ++ toString c ++ ")" := by
  cases r with
  | pyNone => left; decide
  | nonObject => left; decide
  | dict d =>
    by_cases ht : d.truthy = false
    · left
      rw [get_filter_reason, if_pos ht]
      decide
    · cases hr : d.reason with
      | none =>
        left
        rw [get_filter_reason, if_neg ht, hr]
        decide
      | some c =>
        by_cases hc : 0 ≤ c ∧ c ≤ 7
        · left
          obtain ⟨hc0, hc7⟩ := hc
          rw [get_filter_reason, if_neg ht, hr]
          interval_cases c <;> decide
        · right
          refine ⟨c, by omega, ?_⟩
          rw [get_filter_reason, if_neg ht, hr,
            show (some c).getD 0 = c from rfl,
            reason_lookup_none (by omega)]

/-- C9: the derived `is_filtered` flag equals the `IsFiltered` boolean of the
result object when present, and is false when the result is absent/null, a
non-object, or an object without the flag. -/
theorem C9_is_filtered (d : ResultDict) (b : Bool) :
    (d.isFiltered = some b → is_filtered (ResultObj.dict d) = b) ∧
    (d.isFiltered = none → is_filtered (ResultObj.dict d) = false) ∧
    is_filtered ResultObj.pyNone = false ∧
    is_filtered ResultObj.nonObject = false := by
  refine ⟨?_, ?_, rfl, rfl⟩
  · intro h
    rw [is_filtered, h]
    rfl
  · intro h
    rw [is_filtered, h]
    rfl

theorem C9_is_filtered_witness :
    is_filtered (ResultObj.dict ⟨some 1, some true, false⟩) = true ∧
    is_filtered (ResultObj.dict ⟨some 1, none, false⟩) = false :=
  ⟨(C9_is_filtered ⟨some 1, some true, false⟩ true).1 rfl,
   (C9_is_filtered ⟨some 1, none, false⟩ true).2.1 rfl⟩

/-- One entry of the `leases` array of the lease file: either field may be
missing (`none`); present values are strings. -/
structure Lease where
  ip : Option String
  hostname : Option String
deriving DecidableEq

/-- A Python string-to-string dict, modelled by its lookup function. -/
def PyDict : Type := String → Option String

/-- The dict literal of app.py line 42. -/
def dictEmpty : PyDict := fun _ => none

/-- Python dict assignment `m[k] = v` (app.py line 47), as a pointwise
update of the lookup function. -/
def dictInsert (m : PyDict) (k v : String) : PyDict :=
  fun q => if q = k then some v else m q

/-- The loop body of `load_leases` (app.py lines 43-47): read both fields
with `""` as `dict.get` default, and write the entry only when both strings
are truthy, i.e. non-empty. -/
def leaseStep (m : PyDict) (lease : Lease) : PyDict :=
  if (lease.ip.getD "" != "") && (lease.hostname.getD "" != "") then
    dictInsert m (lease.ip.getD "") (lease.hostname.getD "")
  else m

/-- Embedding of `load_leases` (app.py lines 35-48). -/
def load_leases (ls : List Lease) : PyDict :=
  ls.foldl leaseStep dictEmpty

/-- Reference builder following the words of claim C8: exactly the entries
missing the `ip` or the `hostname` field are discarded; every other entry is
written into the mapping in array order. -/
def load_leases_claimed (ls : List Lease) : PyDict :=
  ls.foldl
    (fun m lease =>
      match lease.ip, lease.hostname with
      | some ip, some h => dictInsert m ip h
      | _, _ => m)
    dictEmpty

/-- Whether `load_leases` keeps a lease entry: both fields present and
non-empty. -/
def surviving (lease : Lease) : Bool :=
  (lease.ip.getD "" != "") && (lease.hostname.getD "" != "")

/-- The hostname of the last entry for `ip` kept by `load_leases`, in array
order. -/
def lastHost (ls : List Lease) (ip : String) : Option String :=
  (ls.reverse.find? (fun lease => surviving lease && (lease.ip.getD "" == ip))).map
    (fun lease => lease.hostname.getD "")

/-- C8 counterexample: a second entry for the same IP whose `hostname` field
is present but empty.  Both fields are present, so under the claim's
description the entry survives and last-write-wins would bind the IP to "";
the code instead discards it and keeps the earlier hostname. -/
theorem C8_load_leases_counterexample :
    load_leases [⟨some "192.168.0.7", some "phone"⟩, ⟨some "192.168.0.7", some ""⟩]
        "192.168.0.7" = some "phone" ∧
    load_leases_claimed [⟨some "192.168.0.7", some "phone"⟩, ⟨some "192.168.0.7", some ""⟩]
        "192.168.0.7" = some "" := by
  constructor
  · rfl
  · rfl

theorem leaseStep_apply (m : PyDict) (lease : Lease) (ip : String) :
    (leaseStep m lease) ip =
      if surviving lease && (lease.ip.getD "" == ip) then some (lease.hostname.getD "")
      else m ip := by
  rw [leaseStep]
  by_cases h1 : surviving lease
  · rw [if_pos (show ((lease.ip.getD "" != "") && (lease.hostname.getD "" != "")) = true
      from h1), dictInsert]
    by_cases h2 : ip = lease.ip.getD ""
    · rw [if_pos h2, if_pos (by simp [h1, h2])]
    · rw [if_neg h2, if_neg (by
        simp only [Bool.and_eq_true, beq_iff_eq]
        rintro ⟨-, he⟩
        exact h2 he.symm)]
  · rw [if_neg (show ¬ ((lease.ip.getD "" != "") && (lease.hostname.getD "" != "")) = true
      from h1), if_neg (by
        simp only [Bool.and_eq_true]
        rintro ⟨hs, -⟩
        exact h1 hs)]

theorem lastHost_cons (lease : Lease) (rest : List Lease) (ip : String) :
    lastHost (lease :: rest) ip =
      (lastHost rest ip).or
        (if surviving lease && (lease.ip.getD "" == ip) then some (lease.hostname.getD "")
         else none) := by
  rw [lastHost, lastHost, List.reverse_cons, List.find?_append]
  cases hf : List.find? (fun l => surviving l && (l.ip.getD "" == ip)) rest.reverse with
  | none =>
    cases hq : surviving lease && (lease.ip.getD "" == ip) with
    | true => simp [List.find?, hq]
    | false => simp [List.find?, hq]
  | some x => rfl

theorem load_leases_foldl (ls : List Lease) :
    ∀ (m : PyDict) (ip : String),
      (ls.foldl leaseStep m) ip = (lastHost ls ip).or (m ip) := by
  induction ls with
  | nil => intro m ip; rfl
  | cons lease rest ih =>
    intro m ip
    rw [List.foldl_cons, ih, lastHost_cons, leaseStep_apply]
    cases hq : surviving lease && (lease.ip.getD "" == ip) with
    | true =>
      cases lastHost rest ip <;> rfl
    | false =>
      cases lastHost rest ip <;> rfl

/-- C8 amended: entries missing either field, or carrying an empty string in
either field, are discarded; for every IP the built mapping holds exactly the
hostname of the last surviving entry for that IP in array order (and no
binding when no entry for it survives). -/
theorem C8_load_leases_amended (ls : List Lease) (ip : String) :
    load_leases ls ip = lastHost ls ip := by
  rw [load_leases, load_leases_foldl]
  cases lastHost ls ip <;> rfl

/-- Embedding of the hostname resolver (app.py line 122):
`ip_to_hostname.get(ip, ip)`. -/
def resolve_hostname (m : PyDict) (ip : String) : String :=
  (m ip).getD ip

/-- C3 counterexample: a lease table binding "10.0.0.1" to the literal
hostname string "10.0.0.2" and "10.0.0.2" to "nas".  Resolving "10.0.0.1"
once gives "10.0.0.2"; resolving that gives "nas", so the resolver is not
idempotent on every (ip, leases) pair. -/
theorem C3_resolve_hostname_counterexample :
    resolve_hostname (dictInsert (dictInsert dictEmpty "10.0.0.1" "10.0.0.2") "10.0.0.2" "nas")
        (resolve_hostname
          (dictInsert (dictInsert dictEmpty "10.0.0.1" "10.0.0.2") "10.0.0.2" "nas")
          "10.0.0.1") ≠
      resolve_hostname (dictInsert (dictInsert dictEmpty "10.0.0.1" "10.0.0.2") "10.0.0.2" "nas")
        "10.0.0.1" := by
  decide

/-- C3 amended: the resolver returns the mapped hostname when the IP is a key
and the IP unchanged otherwise (a pure total function), and repeated
resolution is idempotent provided the value the IP resolves to is not itself
a key bound to a different value. -/
theorem C3_resolve_hostname_amended (m : PyDict) (ip : String) :
    (∀ h, m ip = some h → resolve_hostname m ip = h) ∧
    (m ip = none → resolve_hostname m ip = ip) ∧
    (∀ h, m ip = some h → (m h = none ∨ m h = some h) →
      resolve_hostname m (resolve_hostname m ip) = resolve_hostname m ip) ∧
    (m ip = none →
      resolve_hostname m (resolve_hostname m ip) = resolve_hostname m ip) := by
  refine ⟨?_, ?_, ?_, ?_⟩
  · intro h hm
    rw [resolve_hostname, hm]
    rfl
  · intro hm
    rw [resolve_hostname, hm]
    rfl
  · intro h hm hcond
    have h1 : resolve_hostname m ip = h := by rw [resolve_hostname, hm]; rfl
    rw [h1]
    rcases hcond with hc | hc
    · rw [resolve_hostname, hc]
      rfl
    · rw [resolve_hostname, hc]
      rfl
  · intro hm
    have h1 : resolve_hostname m ip = ip := by rw [resolve_hostname, hm]; rfl
    rw [h1]
    exact h1

theorem C3_resolve_hostname_amended_witness :
    resolve_hostname (dictInsert dictEmpty "192.168.0.2" "laptop") "192.168.0.2" = "laptop" ∧
    resolve_hostname (dictInsert dictEmpty "192.168.0.2" "laptop") "192.168.0.9" = "192.168.0.9" ∧
    resolve_hostname (dictInsert dictEmpty "192.168.0.2" "laptop")
        (resolve_hostname (dictInsert dictEmpty "192.168.0.2" "laptop") "192.168.0.2") =
      resolve_hostname (dictInsert dictEmpty "192.168.0.2" "laptop") "192.168.0.2" :=
  ⟨(C3_resolve_hostname_amended (dictInsert dictEmpty "192.168.0.2" "laptop") "192.168.0.2").1
      "laptop" rfl,
   (C3_resolve_hostname_amended (dictInsert dictEmpty "192.168.0.2" "laptop") "192.168.0.9").2.1
      rfl,
   (C3_resolve_hostname_amended (dictInsert dictEmpty "192.168.0.2" "laptop") "192.168.0.2").2.2.1
      "laptop" rfl (Or.inl rfl)⟩

/-- Python's `str.isspace` characters (the whitespace stripped by
`str.strip`). -/
def isPyWhitespace (c : Char) : Bool :=
  c = ' ' || c = '\t' || c = '\n' || c = '\r' || c = '\x0b' || c = '\x0c'

/-- Python `line.strip()` (app.py line 26): drop leading and trailing
whitespace. -/
def pyStrip (s : String) : String :=
  String.mk (((s.data.dropWhile isPyWhitespace).reverse.dropWhile isPyWhitespace).reverse)

/-- Embedding of `load_querylog` (app.py lines 19-32) over the list of lines
of the log file.  `parse` stands for the external `json.loads`, with
`parse l = none` meaning that `json.loads` raises on `l`; the loader then
stops with `Except.error l`, modelling the exception propagating out of the
loop (the caller at app.py lines 114-119 handles only `FileNotFoundError`). -/
def load_querylog {α : Type} (parse : String → Option α) : List String → Except String (List α)
  | [] => Except.ok []
  | line :: rest =>
    if pyStrip line = "" then load_querylog parse rest
    else
      match parse (pyStrip line) with
      | some r => (load_querylog parse rest).map (fun rs => r :: rs)
      | none => Except.error (pyStrip line)

/-- A concrete stand-in for `json.loads` used at concrete inputs: the
two-character line holding an empty JSON object parses to a record
(represented by `0`); any other line fails to parse. -/
def json_loads_stub (s : String) : Option Nat :=
  if s = "\x7b\x7d" then some 0 else none

/-- C1 counterexample: a log file whose first line parses and whose second
line is not JSON.  The loader raises on the second line instead of skipping
it, so the loaded record set is not the set of successfully parsed lines. -/
theorem C1_load_querylog_counterexample :
    load_querylog json_loads_stub ["\x7b\x7d", "oops"] = Except.error "oops" ∧
    (Except.error "oops" : Except String (List Nat)) ≠ Except.ok [0] := by
  constructor
  · rfl
  · simp

theorem load_querylog_ok {α : Type} (parse : String → Option α) :
    ∀ lines : List String, (∀ l ∈ lines, pyStrip l ≠ "" → parse (pyStrip l) ≠ none) →
      load_querylog parse lines =
        Except.ok (lines.filterMap
          (fun l => if pyStrip l = "" then none else parse (pyStrip l))) := by
  intro lines
  induction lines with
  | nil => intro _; rfl
  | cons line rest ih =>
    intro hall
    have hrest := ih (fun l hl h => hall l (List.mem_cons_of_mem _ hl) h)
    by_cases hb : pyStrip line = ""
    · simp [load_querylog, hb, hrest]
    · cases hpp : parse (pyStrip line) with
      | none => exact absurd hpp (hall line (List.mem_cons_self _ _) hb)
      | some r => simp [load_querylog, hb, hpp, hrest, Except.map]

theorem load_querylog_error {α : Type} (parse : String → Option α) :
    ∀ lines : List String, (∃ l ∈ lines, pyStrip l ≠ "" ∧ parse (pyStrip l) = none) →
      ∃ e, load_querylog parse lines = Except.error e := by
  intro lines
  induction lines with
  | nil =>
    rintro ⟨l, hl, -⟩
    exact absurd hl (List.not_mem_nil l)
  | cons line rest ih =>
    rintro ⟨l, hl, hne, hn⟩
    by_cases hb : pyStrip line = ""
    · rcases List.mem_cons.mp hl with rfl | hl'
      · exact absurd hb hne
      · obtain ⟨e, he⟩ := ih ⟨l, hl', hne, hn⟩
        exact ⟨e, by simp [load_querylog, hb, he]⟩
    · cases hpp : parse (pyStrip line) with
      | none => exact ⟨pyStrip line, by simp [load_querylog, hb, hpp]⟩
      | some r =>
        rcases List.mem_cons.mp hl with rfl | hl'
        · rw [hpp] at hn
          exact absurd hn (by simp)
        · obtain ⟨e, he⟩ := ih ⟨l, hl', hne, hn⟩
          exact ⟨e, by simp [load_querylog, hb, hpp, he, Except.map]⟩

/-- C1 amended: lines that strip to the empty string are skipped; when every
non-blank line parses as JSON the loader returns exactly the parsed records
of the non-blank lines in file order; but when some non-blank line fails to
parse, loading aborts with an error rather than skipping the line. -/
theorem C1_load_querylog_amended {α : Type} (parse : String → Option α)
    (lines : List String) :
    ((∀ l ∈ lines, pyStrip l ≠ "" → parse (pyStrip l) ≠ none) →
      load_querylog parse lines =
        Except.ok (lines.filterMap
          (fun l => if pyStrip l = "" then none else parse (pyStrip l)))) ∧
    ((∃ l ∈ lines, pyStrip l ≠ "" ∧ parse (pyStrip l) = none) →
      ∃ e, load_querylog parse lines = Except.error e) :=
  ⟨load_querylog_ok parse lines, load_querylog_error parse lines⟩

theorem C1_load_querylog_amended_witness :
    load_querylog json_loads_stub ["\x7b\x7d", "", "  ", "\x7b\x7d"] = Except.ok [0, 0] := by
  have h := (C1_load_querylog_amended json_loads_stub ["\x7b\x7d", "", "  ", "\x7b\x7d"]).1
    (by decide)
  exact h

/-- A normalized query record, with the four fields the sidebar filters
read: the resolved client hostname, the derived top-level domain, the query
type `QT`, and the derived `is_filtered` flag. -/
structure NRec where
  hostname : String
  top_level_domain : String
  QT : String
  is_filtered : Bool
deriving DecidableEq

/-- Client filter (app.py lines 168-178): Python's truthiness test on the
selection list makes an empty selection a no-op; otherwise keep the rows
whose hostname is in the selection (`df[df["hostname"].isin(...)]`). -/
def filterClients (sel : List String) (rs : List NRec) : List NRec :=
  if sel = [] then rs else rs.filter (fun r => sel.contains r.hostname)

/-- Top-level-domain filter (app.py lines 180-190). -/
def filterDomains (sel : List String) (rs : List NRec) : List NRec :=
  if sel = [] then rs else rs.filter (fun r => sel.contains r.top_level_domain)

/-- Query-type filter (app.py lines 192-202). -/
def filterQueryTypes (sel : List String) (rs : List NRec) : List NRec :=
  if sel = [] then rs else rs.filter (fun r => sel.contains r.QT)

/-- Filter-status radio filter (app.py lines 204-211): "Filtered Only" and
"Not Filtered Only" mask on `is_filtered`; any other selection ("All") is a
no-op. -/
def filterStatus (sel : String) (rs : List NRec) : List NRec :=
  if sel = "Filtered Only" then rs.filter (fun r => r.is_filtered)
  else if sel = "Not Filtered Only" then rs.filter (fun r => !r.is_filtered)
  else rs

/-- C6: with empty selections on all three set-valued filters and status
"All", the filter pipeline is the identity on the record list; and each
set-valued filter with a non-empty selection keeps, in the original order
(as a sublist), exactly the records whose field is a member of the
selection. -/
theorem C6_filters (rs : List NRec) (selC selD selQ : List String) :
    filterStatus "All" (filterQueryTypes [] (filterDomains [] (filterClients [] rs))) = rs ∧
    (selC ≠ [] →
      (filterClients selC rs).Sublist rs ∧
      ∀ r, r ∈ filterClients selC rs ↔ r ∈ rs ∧ selC.contains r.hostname) ∧
    (selD ≠ [] →
      (filterDomains selD rs).Sublist rs ∧
      ∀ r, r ∈ filterDomains selD rs ↔ r ∈ rs ∧ selD.contains r.top_level_domain) ∧
    (selQ ≠ [] →
      (filterQueryTypes selQ rs).Sublist rs ∧
      ∀ r, r ∈ filterQueryTypes selQ rs ↔ r ∈ rs ∧ selQ.contains r.QT) := by
  refine ⟨rfl, ?_, ?_, ?_⟩
  · intro h
    rw [filterClients, if_neg h]
    exact ⟨List.filter_sublist _, fun r => by simp [List.mem_filter]⟩
  · intro h
    rw [filterDomains, if_neg h]
    exact ⟨List.filter_sublist _, fun r => by simp [List.mem_filter]⟩
  · intro h
    rw [filterQueryTypes, if_neg h]
    exact ⟨List.filter_sublist _, fun r => by simp [List.mem_filter]⟩

theorem C6_filters_witness :
    filterStatus "All" (filterQueryTypes [] (filterDomains [] (filterClients []
        [NRec.mk "laptop" "google.com" "A" false, NRec.mk "phone" "doubleclick.net" "AAAA" true]))) =
      [NRec.mk "laptop" "google.com" "A" false, NRec.mk "phone" "doubleclick.net" "AAAA" true] ∧
    (filterClients ["phone"]
        [NRec.mk "laptop" "google.com" "A" false, NRec.mk "phone" "doubleclick.net" "AAAA" true]).Sublist
      [NRec.mk "laptop" "google.com" "A" false, NRec.mk "phone" "doubleclick.net" "AAAA" true] :=
  ⟨(C6_filters
      [NRec.mk "laptop" "google.com" "A" false, NRec.mk "phone" "doubleclick.net" "AAAA" true]
      ["phone"] ["google.com"] ["A"]).1,
   ((C6_filters
      [NRec.mk "laptop" "google.com" "A" false, NRec.mk "phone" "doubleclick.net" "AAAA" true]
      ["phone"] ["google.com"] ["A"]).2.1 (by decide)).1⟩
